import Mathlib

set_option maxRecDepth 10000

/-!
Verification development for the Flux task board (projects → epics → tasks,
webhook delivery subsystem).  Pure fragments of the TypeScript sources are
embedded shallowly as Lean functions; the shared store module (types.ts /
store.ts of `@flux/shared`) is not part of the source tree, so the
definitions that come from it are modelled from the specification and say so
in their doc comments.
-/

namespace Flux

/-- Task status, `status ∈ {todo, in_progress, done}`. -/
inductive Status where
  | todo
  | in_progress
  | done
deriving DecidableEq, Repr

/-- Modelled from the spec: the Task entity of the shared store
(`packages/shared/src/types.ts` is absent from the tree).
Fields: id, project_id, epic_id?, title, notes?, status, priority
(default 2), depends_on (ordered list of task ids), timestamps. -/
structure Task where
  id : String
  project_id : String
  epic_id : Option String
  title : String
  notes : Option String
  status : Status
  priority : Nat
  depends_on : List String
  created_at : Nat
  updated_at : Nat
deriving DecidableEq, Repr

/-- Modelled from the spec: the Project entity of the shared store. -/
structure Project where
  id : String
  name : String
  description : Option String
  created_at : Nat
  updated_at : Nat
deriving DecidableEq, Repr

/-- Modelled from the spec: the Epic entity of the shared store. -/
structure Epic where
  id : String
  project_id : String
  title : String
  notes : Option String
  status : Status
  created_at : Nat
  updated_at : Nat
deriving DecidableEq, Repr

/-- The `Store` snapshot persisted whole by every adapter
(`{ projects, epics, tasks }`, as in the adapters' `defaultData`). -/
structure Store where
  projects : List Project
  epics : List Epic
  tasks : List Task
deriving DecidableEq, Repr

/-- Modelled from the spec: `getTask` resolves a task id in the store
(first match by id). -/
def getTask (st : Store) (id : String) : Option Task :=
  st.tasks.find? (fun t => t.id = id)

/-- Modelled from the spec (§4.1 Dependency Resolver, the shared-store
function `isTaskBlocked` used by the server routes): fetch the task's
depends_on list; for each id resolve the referenced task; if found and its
status ≠ done, return true; unresolved ids are skipped; an unknown task id
returns false. -/
def isTaskBlocked (st : Store) (id : String) : Bool :=
  match getTask st id with
  | none => false
  | some t => t.depends_on.any (fun d =>
      match getTask st d with
      | none => false
      | some dep => dep.status ≠ Status.done)

/-- Outcome of a mutation-engine call: success carrying the entity, a
non-throwing not-found result, or a synchronous validation error. -/
inductive MutResult (α : Type) where
  | ok (a : α)
  | notFound
  | invalid (msg : String)
deriving DecidableEq, Repr

/-- Modelled from the spec: `getProject` resolves a project id. -/
def getProject (st : Store) (id : String) : Option Project :=
  st.projects.find? (fun p => p.id = id)

/-- Modelled from the spec: `getEpic` resolves an epic id. -/
def getEpic (st : Store) (id : String) : Option Epic :=
  st.epics.find? (fun e => e.id = id)

/-- Partial-update patch for a task: only provided fields change. -/
structure TaskPatch where
  title : Option String := none
  notes : Option String := none
  status : Option Status := none
  priority : Option Nat := none
  depends_on : Option (List String) := none
  epic_id : Option (Option String) := none
deriving Repr

/-- Modelled from the spec (§4.2 Mutation Engine, `createTask` of the absent
shared store): validate title non-empty, reject self-referential depends_on,
insert the task and emit `task.created`.  The generated id is passed in
explicitly.  Returns (result, new store, emitted event names). -/
def createTask (st : Store) (id project_id : String) (title : String)
    (epic_id : Option String) (notes : Option String)
    (depends_on : List String) (now : Nat) :
    MutResult Task × Store × List String :=
  if title = "" then
    (MutResult.invalid "title required", st, [])
  else if id ∈ depends_on then
    (MutResult.invalid "self dependency", st, [])
  else
    let t : Task :=
      { id := id, project_id := project_id, epic_id := epic_id,
        title := title, notes := notes, status := Status.todo,
        priority := 2, depends_on := depends_on,
        created_at := now, updated_at := now }
    (MutResult.ok t, { st with tasks := st.tasks ++ [t] }, ["task.created"])

/-- Apply a task patch field-by-field, stamping updated_at. -/
def applyTaskPatch (t : Task) (p : TaskPatch) (now : Nat) : Task :=
  { t with
    title := p.title.getD t.title,
    notes := (match p.notes with | some n => some n | none => t.notes),
    status := p.status.getD t.status,
    priority := p.priority.getD t.priority,
    depends_on := p.depends_on.getD t.depends_on,
    epic_id := p.epic_id.getD t.epic_id,
    updated_at := now }

/-- Modelled from the spec (§4.2): `updateTask` — unknown id gives a
non-throwing not-found outcome with no event and no store change;
a patch whose depends_on contains the task's own id is a validation error;
otherwise the partial update is applied, `task.updated` is emitted, and a
status change additionally emits `task.status_changed`. -/
def updateTask (st : Store) (id : String) (p : TaskPatch) (now : Nat) :
    MutResult Task × Store × List String :=
  match getTask st id with
  | none => (MutResult.notFound, st, [])
  | some t =>
    match p.depends_on with
    | some deps =>
      if id ∈ deps then
        (MutResult.invalid "self dependency", st, [])
      else
        updateTaskApply st t p now
    | none => updateTaskApply st t p now
where
  /-- Shared tail of `updateTask`: apply the patch and emit events. -/
  updateTaskApply (st : Store) (t : Task) (p : TaskPatch) (now : Nat) :
      MutResult Task × Store × List String :=
    let t' := applyTaskPatch t p now
    let es := if t'.status ≠ t.status
      then ["task.updated", "task.status_changed"] else ["task.updated"]
    (MutResult.ok t',
     { st with tasks := st.tasks.map (fun u => if u.id = t.id then t' else u) },
     es)

/-- Modelled from the spec (§4.2): `deleteTask` — unknown id gives
not-found, no event, no change; otherwise the task is removed and
`task.deleted` emitted after removal (dangling depends_on references in
other tasks are left in place). -/
def deleteTask (st : Store) (id : String) :
    MutResult Unit × Store × List String :=
  match getTask st id with
  | none => (MutResult.notFound, st, [])
  | some _ =>
    (MutResult.ok (),
     { st with tasks := st.tasks.filter (fun t => t.id ≠ id) },
     ["task.deleted"])

/-- Modelled from the spec (§4.2): `updateProject` partial update. -/
def updateProject (st : Store) (id : String)
    (name : Option String) (description : Option String) (now : Nat) :
    MutResult Project × Store × List String :=
  match getProject st id with
  | none => (MutResult.notFound, st, [])
  | some p =>
    let p' := { p with
      name := name.getD p.name,
      description := (match description with
        | some d => some d | none => p.description),
      updated_at := now }
    (MutResult.ok p',
     { st with projects := st.projects.map (fun q => if q.id = id then p' else q) },
     ["project.updated"])

/-- Modelled from the spec (§3 Lifecycle, §4.2): `deleteProject` — unknown id
gives not-found with no event and no change; otherwise the project is removed
and its epics and tasks cascade-deleted, emitting `project.deleted`. -/
def deleteProject (st : Store) (id : String) :
    MutResult Unit × Store × List String :=
  match getProject st id with
  | none => (MutResult.notFound, st, [])
  | some _ =>
    (MutResult.ok (),
     { projects := st.projects.filter (fun p => p.id ≠ id),
       epics := st.epics.filter (fun e => e.project_id ≠ id),
       tasks := st.tasks.filter (fun t => t.project_id ≠ id) },
     ["project.deleted"])

/-- Modelled from the spec (§4.2): `updateEpic` partial update. -/
def updateEpic (st : Store) (id : String)
    (title : Option String) (notes : Option String) (status : Option Status)
    (now : Nat) : MutResult Epic × Store × List String :=
  match getEpic st id with
  | none => (MutResult.notFound, st, [])
  | some e =>
    let e' := { e with
      title := title.getD e.title,
      notes := (match notes with | some n => some n | none => e.notes),
      status := status.getD e.status,
      updated_at := now }
    (MutResult.ok e',
     { st with epics := st.epics.map (fun f => if f.id = id then e' else f) },
     ["epic.updated"])

/-- Modelled from the spec (§3 Epic is a weak reference): `deleteEpic` —
unknown id gives not-found; otherwise the epic is removed, referencing tasks
keep existing with their epic_id cleared, and `epic.deleted` is emitted. -/
def deleteEpic (st : Store) (id : String) :
    MutResult Unit × Store × List String :=
  match getEpic st id with
  | none => (MutResult.notFound, st, [])
  | some _ =>
    (MutResult.ok (),
     { st with
       epics := st.epics.filter (fun e => e.id ≠ id),
       tasks := st.tasks.map (fun t =>
         if t.epic_id = some id then { t with epic_id := none } else t) },
     ["epic.deleted"])

/-- Modelled from the spec (§4.2): `createProject` — validate name
non-empty, insert, emit `project.created`. -/
def createProject (st : Store) (id name : String)
    (description : Option String) (now : Nat) :
    MutResult Project × Store × List String :=
  if name = "" then
    (MutResult.invalid "name required", st, [])
  else
    let p : Project := { id := id, name := name, description := description,
                         created_at := now, updated_at := now }
    (MutResult.ok p, { st with projects := st.projects ++ [p] },
     ["project.created"])

/-- Modelled from the spec (§4.2): `createEpic` — validate title non-empty,
insert, emit `epic.created`. -/
def createEpic (st : Store) (id project_id title : String)
    (notes : Option String) (now : Nat) :
    MutResult Epic × Store × List String :=
  if title = "" then
    (MutResult.invalid "title required", st, [])
  else
    let e : Epic := { id := id, project_id := project_id, title := title,
                      notes := notes, status := Status.todo,
                      created_at := now, updated_at := now }
    (MutResult.ok e, { st with epics := st.epics ++ [e] }, ["epic.created"])

/-- Stores reachable from the empty store through the mutation engine
(modelled from the spec: the engine is the sole writer path). -/
inductive Reachable : Store → Prop where
  | empty : Reachable ⟨[], [], []⟩
  | stepCreateProject (st : Store) (id name : String) (d : Option String)
      (now : Nat) : Reachable st →
      Reachable (createProject st id name d now).2.1
  | stepUpdateProject (st : Store) (id : String) (n d : Option String)
      (now : Nat) : Reachable st →
      Reachable (updateProject st id n d now).2.1
  | stepDeleteProject (st : Store) (id : String) : Reachable st →
      Reachable (deleteProject st id).2.1
  | stepCreateEpic (st : Store) (id pid title : String) (n : Option String)
      (now : Nat) : Reachable st →
      Reachable (createEpic st id pid title n now).2.1
  | stepUpdateEpic (st : Store) (id : String) (t n : Option String)
      (s : Option Status) (now : Nat) : Reachable st →
      Reachable (updateEpic st id t n s now).2.1
  | stepDeleteEpic (st : Store) (id : String) : Reachable st →
      Reachable (deleteEpic st id).2.1
  | stepCreateTask (st : Store) (id pid title : String)
      (eid : Option String) (n : Option String) (deps : List String)
      (now : Nat) : Reachable st →
      Reachable (createTask st id pid title eid n deps now).2.1
  | stepUpdateTask (st : Store) (id : String) (p : TaskPatch) (now : Nat) :
      Reachable st → Reachable (updateTask st id p now).2.1
  | stepDeleteTask (st : Store) (id : String) : Reachable st →
      Reachable (deleteTask st id).2.1

/-- No task in the store lists its own id among its dependencies. -/
def SelfDepFree (st : Store) : Prop :=
  ∀ t ∈ st.tasks, t.id ∉ t.depends_on

/-- Webhook subscription: url, optional signing secret, subscribed event
names (`*` is the wildcard meaning all events), enabled flag. -/
structure Webhook where
  id : String
  url : String
  secret : Option String
  events : List String
  enabled : Bool
  created_at : Nat
  updated_at : Nat
deriving DecidableEq, Repr

/-- Modelled from the spec (§4.3 step 2): a webhook receives an event iff it
is enabled and its event set contains the event name or the wildcard. -/
def webhookMatches (w : Webhook) (eventName : String) : Bool :=
  w.enabled && (w.events.contains eventName || w.events.contains "*")

/-- A delivery job handed to the Webhook Delivery Worker. -/
structure DeliveryJob where
  webhook_id : String
  event : String
deriving DecidableEq, Repr

/-- Modelled from the spec (§4.3 step 2): for each enabled webhook whose
event set contains the event name or the wildcard, construct exactly one
delivery job. -/
def dispatchJobs (webhooks : List Webhook) (eventName : String) :
    List DeliveryJob :=
  webhooks.filterMap (fun w =>
    if webhookMatches w eventName then some ⟨w.id, eventName⟩ else none)

/-- Jobs produced by dispatching each emitted event name in order. -/
def dispatchAll (webhooks : List Webhook) (events : List String) :
    List DeliveryJob :=
  (events.map (dispatchJobs webhooks)).flatten

/-- Outcome of one HTTP delivery attempt: a response with a status code, or
a network/transport error. -/
inductive AttemptResult where
  | response (status : Nat)
  | netError (msg : String)
deriving DecidableEq, Repr

/-- An attempt succeeds iff it got a 2xx response. -/
def attemptOk : AttemptResult → Bool
  | .response s => 200 ≤ s && s < 300
  | .netError _ => false

/-- Delivery sequence outcome. -/
inductive Outcome where
  | pending
  | success
  | failed
deriving DecidableEq, Repr

/-- The Delivery record updated in place over one delivery sequence. -/
structure DeliveryRecord where
  outcome : Outcome
  attempt_count : Nat
  last_status : Option Nat
  last_error : Option String
deriving DecidableEq, Repr

/-- The fixed backoff schedule: attempt 1 immediate, then retries after
1s, 5s and 30s (delays in milliseconds before attempts 1,2,3,4). -/
def backoffMs : List Nat := [0, 1000, 5000, 30000]

/-- Modelled from the spec (§4.4 Webhook Delivery Worker): the retry loop.
`env k` is the outcome of the k-th HTTP attempt (attempts are numbered from
1); `i` is the current attempt number and `r` the retries left.  Returns the
terminal record and the list of delays waited before each attempt made. -/
def deliverAux (env : Nat → AttemptResult) (i : Nat) :
    Nat → DeliveryRecord × List Nat
  | 0 =>
    let d := backoffMs.getD (i - 1) 0
    match env i with
    | .response s =>
      if 200 ≤ s && s < 300 then (⟨Outcome.success, i, some s, none⟩, [d])
      else (⟨Outcome.failed, i, some s, none⟩, [d])
    | .netError e => (⟨Outcome.failed, i, none, some e⟩, [d])
  | r + 1 =>
    let d := backoffMs.getD (i - 1) 0
    match env i with
    | .response s =>
      if 200 ≤ s && s < 300 then (⟨Outcome.success, i, some s, none⟩, [d])
      else
        let (dr, ds) := deliverAux env (i + 1) r
        (dr, d :: ds)
    | .netError _ =>
      let (dr, ds) := deliverAux env (i + 1) r
      (dr, d :: ds)

/-- Modelled from the spec (§4.4): `deliver` runs attempt 1 with up to 3
retries (4 total attempts). -/
def deliver (env : Nat → AttemptResult) : DeliveryRecord × List Nat :=
  deliverAux env 1 3

/-- A registered live consumer (one entry of the `sseClients` set in
`packages/server/src/index.ts`); `failing` records whether
`controller.enqueue` throws for this consumer (disconnected stream). -/
structure SseClient where
  id : Nat
  failing : Bool
deriving DecidableEq, Repr

/-- Embeds `broadcastSse` (`packages/server/src/index.ts:94-104`): one
payload is built, then for every registered controller `enqueue` is tried;
a throw is caught locally and deletes that controller from the registry.
Returns the registry after the loop and the (id, payload) writes that
succeeded. -/
def broadcastSse (payload : String) :
    List SseClient → List SseClient × List (Nat × String)
  | [] => ([], [])
  | c :: rest =>
    let (reg, delivered) := broadcastSse payload rest
    if c.failing then (reg, delivered)
    else (c :: reg, (c.id, payload) :: delivered)

/-- Embeds the timer semantics of `notifyDataChange`
(`packages/server/src/index.ts:124-131`): each data change at time `t`
clears any pending timeout and schedules a `data-changed` broadcast at
`t + delay`; the pending timer fires only when no further change arrives at
or before its deadline.  Input: the sorted times of the data changes;
output: the times at which a broadcast fires. -/
def notifyTimes (delay : Nat) : List Nat → List Nat
  | [] => []
  | [t] => [t + delay]
  | t₁ :: t₂ :: rest =>
    if t₁ + delay < t₂ then (t₁ + delay) :: notifyTimes delay (t₂ :: rest)
    else notifyTimes delay (t₂ :: rest)

/-- What the backing file/row held when an adapter `read()` ran: no stored
content yet, or stored content whose `JSON.parse` either produced a store or
threw (malformed data). -/
inductive ReadState where
  | absent
  | present (parsed : Except String Store)

/-- The empty default store (`defaultData` of the adapters). -/
def defaultData : Store := ⟨[], [], []⟩

/-- Embeds `createJsonAdapter(...).read` (json-adapter source, lines 19-31):
if the file exists, parse it, and on any throw fall back to `defaultData`;
if the file is absent, use `defaultData` and write it out.  Returns the
resulting in-memory store and whether a write-back happened. -/
def jsonAdapterRead : ReadState → Store × Bool
  | .absent => (defaultData, true)
  | .present (.ok s) => (s, false)
  | .present (.error _) => (defaultData, false)

/-- Embeds `createSqliteAdapter(...).read` (sqlite-adapter source, lines
44-56): a stored row is parsed with a try/catch falling back to
`defaultData`; a missing row loads `defaultData` and writes it back. -/
def sqliteAdapterRead : Option (Except String Store) → Store × Bool
  | some (.ok s) => (s, false)
  | some (.error _) => (defaultData, false)
  | none => (defaultData, true)

/-- Embeds `createFileAdapter(...).read`
(`packages/server/src/index.ts:60-67`): `readFileSync` + `JSON.parse`
wrapped in a try/catch whose handler replaces the data with `defaultData`.
The argument is the combined outcome of the read-and-parse. -/
def fileAdapterRead : Except String Store → Store
  | .ok s => s
  | .error _ => defaultData

/-- Embeds the adapters' `write()` paths (json-adapter lines 32-38, sqlite
adapter lines 57-65, `index.ts:68-70`): the filesystem/database call is not
wrapped in any try/catch, so its outcome — success or thrown error —
propagates unchanged to the caller. -/
def adapterWrite (fsResult : Except String Unit) : Except String Unit :=
  fsResult

/-! SHA-256 and HMAC-SHA256, modelled from the spec's wire contract (the
signing primitive used by the absent delivery worker is node's
crypto HMAC-SHA256; it is embedded here bit-faithfully over byte lists,
with 32-bit words as Nat reduced mod 2^32). -/

/-- Reduce to a 32-bit word. -/
def w32 (n : Nat) : Nat := n % 4294967296

/-- Right rotation of a 32-bit word. -/
def rotr32 (n x : Nat) : Nat := w32 ((x >>> n) ||| (x <<< (32 - n)))

/-- SHA-256 Ch function. -/
def chF (e f g : Nat) : Nat := (e &&& f) ^^^ ((4294967295 - e) &&& g)

/-- SHA-256 Maj function. -/
def majF (a b c : Nat) : Nat := (a &&& b) ^^^ (a &&& c) ^^^ (b &&& c)

/-- SHA-256 Σ0. -/
def bigSigma0 (x : Nat) : Nat := rotr32 2 x ^^^ rotr32 13 x ^^^ rotr32 22 x

/-- SHA-256 Σ1. -/
def bigSigma1 (x : Nat) : Nat := rotr32 6 x ^^^ rotr32 11 x ^^^ rotr32 25 x

/-- SHA-256 σ0. -/
def smallSigma0 (x : Nat) : Nat := rotr32 7 x ^^^ rotr32 18 x ^^^ (x >>> 3)

/-- SHA-256 σ1. -/
def smallSigma1 (x : Nat) : Nat := rotr32 17 x ^^^ rotr32 19 x ^^^ (x >>> 10)

/-- The 64 SHA-256 round constants. -/
def K256 : List Nat := [
  1116352408, 1899447441, 3049323471, 3921009573, 961987163, 1508970993,
  2453635748, 2870763221, 3624381080, 310598401, 607225278, 1426881987,
  1925078388, 2162078206, 2614888103, 3248222580, 3835390401, 4022224774,
  264347078, 604807628, 770255983, 1249150122, 1555081692, 1996064986,
  2554220882, 2821834349, 2952996808, 3210313671, 3336571891, 3584528711,
  113926993, 338241895, 666307205, 773529912, 1294757372, 1396182291,
  1695183700, 1986661051, 2177026350, 2456956037, 2730485921, 2820302411,
  3259730800, 3345764771, 3516065817, 3600352804, 4094571909, 275423344,
  430227734, 506948616, 659060556, 883997877, 958139571, 1322822218,
  1537002063, 1747873779, 1955562222, 2024104815, 2227730452, 2361852424,
  2428436474, 2756734187, 3204031479, 3329325298]

/-- The SHA-256 initial hash value. -/
def initH : Nat × Nat × Nat × Nat × Nat × Nat × Nat × Nat :=
  (1779033703, 3144134277, 1013904242, 2773480762, 1359893119, 2600822924,
   528734635, 1541459225)

/-- Big-endian 8-byte encoding of a length in bits. -/
def be64 (n : Nat) : List Nat :=
  (List.range 8).map (fun k => (n >>> (8 * (7 - k))) % 256)

/-- SHA-256 message padding: append 0x80, zeros to 56 mod 64, then the
bit length as 8 bytes big-endian. -/
def shaPad (msg : List Nat) : List Nat :=
  let len := msg.length
  let padLen := (64 - ((len + 9) % 64)) % 64
  msg ++ 128 :: (List.replicate padLen 0 ++ be64 (8 * len))

/-- Split off the first `n` bytes. -/
def splitBlock : List Nat → Nat → List Nat × List Nat
  | l, 0 => ([], l)
  | [], _ + 1 => ([], [])
  | a :: r, n + 1 =>
    let (b, rest) := splitBlock r n
    (a :: b, rest)

/-- Split a byte list into 64-byte blocks (fuel-driven, one unit of fuel
per element, which bounds the number of blocks). -/
def toBlocksAux : Nat → List Nat → List (List Nat)
  | 0, _ => []
  | _ + 1, [] => []
  | fuel + 1, a :: r =>
    let (b, rest) := splitBlock (a :: r) 64
    b :: toBlocksAux fuel rest

/-- Split a byte list into 64-byte blocks. -/
def toBlocks (l : List Nat) : List (List Nat) :=
  toBlocksAux l.length l

/-- Combine bytes into 32-bit big-endian words. -/
def bytesToWords : List Nat → List Nat
  | b0 :: b1 :: b2 :: b3 :: rest =>
    (((b0 * 256 + b1) * 256 + b2) * 256 + b3) :: bytesToWords rest
  | _ => []

/-- Extend the 16 message words to the 64-entry schedule. -/
def extendSchedule (ws : List Nat) : Nat → List Nat
  | 0 => ws
  | fuel + 1 =>
    let n := ws.length
    let next := w32 (smallSigma1 (ws.getD (n - 2) 0) + ws.getD (n - 7) 0 +
      smallSigma0 (ws.getD (n - 15) 0) + ws.getD (n - 16) 0)
    extendSchedule (ws ++ [next]) fuel

/-- The 64 compression rounds over the (K, W) pairs. -/
def shaRounds : List Nat → List Nat →
    Nat × Nat × Nat × Nat × Nat × Nat × Nat × Nat →
    Nat × Nat × Nat × Nat × Nat × Nat × Nat × Nat
  | k :: ks, w :: ws, (a, b, c, d, e, f, g, h) =>
    let t1 := w32 (h + bigSigma1 e + chF e f g + k + w)
    let t2 := w32 (bigSigma0 a + majF a b c)
    shaRounds ks ws (w32 (t1 + t2), a, b, c, w32 (d + t1), e, f, g)
  | _, _, st => st

/-- Compress one 64-byte block into the running hash. -/
def compressBlock (h : Nat × Nat × Nat × Nat × Nat × Nat × Nat × Nat)
    (block : List Nat) : Nat × Nat × Nat × Nat × Nat × Nat × Nat × Nat :=
  let ws := extendSchedule (bytesToWords block) 48
  let (a, b, c, d, e, f, g, hh) := shaRounds K256 ws h
  let (h0, h1, h2, h3, h4, h5, h6, h7) := h
  (w32 (h0 + a), w32 (h1 + b), w32 (h2 + c), w32 (h3 + d),
   w32 (h4 + e), w32 (h5 + f), w32 (h6 + g), w32 (h7 + hh))

/-- Serialize a 32-bit word to 4 big-endian bytes. -/
def wordBytes (w : Nat) : List Nat :=
  [(w >>> 24) % 256, (w >>> 16) % 256, (w >>> 8) % 256, w % 256]

/-- SHA-256 of a byte list, as the 32-byte digest. -/
def sha256Bytes (msg : List Nat) : List Nat :=
  let (h0, h1, h2, h3, h4, h5, h6, h7) :=
    (toBlocks (shaPad msg)).foldl compressBlock initH
  wordBytes h0 ++ wordBytes h1 ++ wordBytes h2 ++ wordBytes h3 ++
  wordBytes h4 ++ wordBytes h5 ++ wordBytes h6 ++ wordBytes h7

/-- HMAC-SHA256 over byte lists (RFC 2104 with a 64-byte block). -/
def hmacSha256 (key msg : List Nat) : List Nat :=
  let k0 := if key.length > 64 then sha256Bytes key else key
  let k1 := k0 ++ List.replicate (64 - k0.length) 0
  let ip := k1.map (fun b => b ^^^ 54)
  let op := k1.map (fun b => b ^^^ 92)
  sha256Bytes (op ++ sha256Bytes (ip ++ msg))

/-- Lowercase hexadecimal digit. -/
def hexChar (n : Nat) : Char :=
  if n < 10 then Char.ofNat (48 + n) else Char.ofNat (87 + n)

/-- Lowercase hex encoding of a byte list. -/
def bytesToHex (bs : List Nat) : String :=
  String.mk ((bs.map (fun b => [hexChar (b / 16), hexChar (b % 16)])).flatten)

/-- Byte view of an ASCII string (the signing inputs here are ASCII, where
UTF-8 bytes and code points coincide). -/
def strBytes (s : String) : List Nat := s.data.map Char.toNat

/-- Modelled from the spec (§4.4, §6): the signature header value,
`sha256=` followed by the lowercase hex HMAC-SHA256 of the raw body keyed
by the webhook secret. -/
def hmacSha256Hex (secret body : String) : String :=
  bytesToHex (hmacSha256 (strBytes secret) (strBytes body))

/-- Modelled from the spec (§6 wire contract): the headers attached to an
outbound webhook POST; the signature header is attached exactly when a
secret is configured. -/
def buildWebhookHeaders (w : Webhook)
    (eventName deliveryId timestamp body : String) :
    List (String × String) :=
  [("Content-Type", "application/json"),
   ("User-Agent", "Flux-Webhook/1.0"),
   ("X-Flux-Event", eventName),
   ("X-Flux-Delivery", deliveryId),
   ("X-Flux-Timestamp", timestamp)] ++
  (match w.secret with
   | some s => [("X-Flux-Signature", "sha256=" ++ hmacSha256Hex s body)]
   | none => [])

/-! Sample entities for concrete instantiations. -/

/-- A sample task with no dependencies, status todo. -/
def sampleTaskB : Task :=
  { id := "b", project_id := "p", epic_id := none, title := "B",
    notes := none, status := Status.todo, priority := 2, depends_on := [],
    created_at := 0, updated_at := 0 }

/-- A sample task depending on `sampleTaskB`. -/
def sampleTaskA : Task :=
  { id := "a", project_id := "p", epic_id := none, title := "A",
    notes := none, status := Status.todo, priority := 2,
    depends_on := ["b"], created_at := 0, updated_at := 0 }

/-- A sample store holding the two sample tasks. -/
def sampleStore : Store := ⟨[], [], [sampleTaskA, sampleTaskB]⟩

/-- C2: for a task present in the store, `isTaskBlocked` is true iff some id
in its depends_on resolves to an existing task whose status is not done
(so it is false for empty depends_on, dangling ids, and all-done
dependencies); for an id not present in the store it returns false rather
than an error.  The function is a pure read by construction. -/
theorem isTaskBlocked_spec (st : Store) (id : String) :
    (∀ t, getTask st id = some t →
      (isTaskBlocked st id = true ↔
        ∃ d ∈ t.depends_on, ∃ dep, getTask st d = some dep ∧
          dep.status ≠ Status.done))
  ∧ (getTask st id = none → isTaskBlocked st id = false) := by
  constructor
  · intro t ht
    simp only [isTaskBlocked, ht, List.any_eq_true]
    constructor
    · rintro ⟨d, hd, hm⟩
      cases h : getTask st d with
      | none => rw [h] at hm; simp at hm
      | some dep =>
        rw [h] at hm
        simp only [decide_eq_true_eq] at hm
        exact ⟨d, hd, dep, h, hm⟩
    · rintro ⟨d, hd, dep, hdep, hne⟩
      refine ⟨d, hd, ?_⟩
      rw [hdep]
      simpa using hne
  · intro h
    simp [isTaskBlocked, h]

/-- Witness for C2 at a concrete store: task `a` (dependency `b` not done)
is blocked; an id missing from the store is reported unblocked. -/
theorem isTaskBlocked_spec_witness :
    isTaskBlocked sampleStore "a" = true ∧
    isTaskBlocked sampleStore "missing" = false := by
  constructor
  · exact ((isTaskBlocked_spec sampleStore "a").1 sampleTaskA (by decide)).mpr
      ⟨"b", by decide, sampleTaskB, by decide, by decide⟩
  · exact (isTaskBlocked_spec sampleStore "missing").2 (by decide)

/-- C5: for every entity kind, update and delete on an id absent from the
store return the non-throwing not-found outcome, emit no event, and leave
the store unchanged. -/
theorem mutation_notFound_spec (st : Store) (id : String)
    (n d ti no : Option String) (s : Option Status) (p : TaskPatch)
    (now : Nat) :
    (getProject st id = none →
      updateProject st id n d now = (MutResult.notFound, st, []) ∧
      deleteProject st id = (MutResult.notFound, st, []))
  ∧ (getEpic st id = none →
      updateEpic st id ti no s now = (MutResult.notFound, st, []) ∧
      deleteEpic st id = (MutResult.notFound, st, []))
  ∧ (getTask st id = none →
      updateTask st id p now = (MutResult.notFound, st, []) ∧
      deleteTask st id = (MutResult.notFound, st, [])) := by
  refine ⟨fun h => ⟨?_, ?_⟩, fun h => ⟨?_, ?_⟩, fun h => ⟨?_, ?_⟩⟩ <;>
    simp [updateProject, deleteProject, updateEpic, deleteEpic,
      updateTask, deleteTask, h]

/-- Witness for C5 at the empty store with a concrete unknown id. -/
theorem mutation_notFound_spec_witness :
    updateTask ⟨[], [], []⟩ "nope" {} 5 = (MutResult.notFound, ⟨[], [], []⟩, [])
    ∧ deleteProject ⟨[], [], []⟩ "nope" = (MutResult.notFound, ⟨[], [], []⟩, []) := by
  refine ⟨((mutation_notFound_spec ⟨[], [], []⟩ "nope" none none none none
    none {} 5).2.2 (by decide)).1, ?_⟩
  exact ((mutation_notFound_spec ⟨[], [], []⟩ "nope" none none none none
    none {} 5).1 (by decide)).2

/-- Every store reachable through the mutation engine keeps the invariant
that no task lists its own id in depends_on. -/
theorem reachable_selfDepFree (st : Store) (h : Reachable st) :
    SelfDepFree st := by
  induction h with
  | empty => intro t ht; simp at ht
  | stepCreateProject st id name d now hr ih =>
    simp only [createProject]
    split
    · exact ih
    · exact ih
  | stepUpdateProject st id n d now hr ih =>
    cases hfind : getProject st id with
    | none => simpa [updateProject, hfind] using ih
    | some q => simpa [updateProject, hfind] using ih
  | stepDeleteProject st id hr ih =>
    cases hfind : getProject st id with
    | none => simpa [deleteProject, hfind] using ih
    | some q =>
      simp only [deleteProject, hfind]
      intro t ht
      exact ih t (List.mem_filter.1 ht).1
  | stepCreateEpic st id pid title n now hr ih =>
    simp only [createEpic]
    split
    · exact ih
    · exact ih
  | stepUpdateEpic st id t n s now hr ih =>
    cases hfind : getEpic st id with
    | none => simpa [updateEpic, hfind] using ih
    | some e => simpa [updateEpic, hfind] using ih
  | stepDeleteEpic st id hr ih =>
    cases hfind : getEpic st id with
    | none => simpa [deleteEpic, hfind] using ih
    | some e =>
      simp only [deleteEpic, hfind]
      intro x hx
      obtain ⟨u, hu, rfl⟩ := List.mem_map.1 hx
      by_cases h : u.epic_id = some id <;> simpa [h] using ih u hu
  | stepCreateTask st id pid title eid n deps now hr ih =>
    simp only [createTask]
    split
    · exact ih
    · split
      · exact ih
      · next hdeps =>
        intro x hx
        rcases List.mem_append.1 hx with hx | hx
        · exact ih x hx
        · simp only [List.mem_singleton] at hx
          subst hx
          simpa using hdeps
  | stepUpdateTask st id p now hr ih =>
    cases hfind : getTask st id with
    | none => simpa [updateTask, hfind] using ih
    | some t =>
      have htmem : t ∈ st.tasks := List.mem_of_find?_eq_some hfind
      have htid : t.id = id := by simpa using List.find?_some hfind
      have happly : ∀ hdeps : (p.depends_on = none ∧ id ∉ t.depends_on) ∨
          (∃ l, p.depends_on = some l ∧ id ∉ l),
          SelfDepFree (updateTask.updateTaskApply st t p now).2.1 := by
        intro hdeps
        simp only [updateTask.updateTaskApply]
        intro x hx
        obtain ⟨u, hu, rfl⟩ := List.mem_map.1 hx
        by_cases hui : u.id = t.id
        · rw [if_pos hui]
          have hid : (applyTaskPatch t p now).id = t.id := by
            simp [applyTaskPatch]
          rw [hid, htid]
          have hdep : (applyTaskPatch t p now).depends_on =
              p.depends_on.getD t.depends_on := by
            simp [applyTaskPatch]
          rw [hdep]
          rcases hdeps with ⟨hn, hin⟩ | ⟨l, hl, hin⟩
          · simpa [hn] using hin
          · simpa [hl] using hin
        · simpa [hui] using ih u hu
      cases hpd : p.depends_on with
      | some deps =>
        by_cases hin : id ∈ deps
        · simpa [updateTask, hfind, hpd, hin] using ih
        · have := happly (Or.inr ⟨deps, hpd, hin⟩)
          simpa [updateTask, hfind, hpd, hin] using this
      | none =>
        have hold : id ∉ t.depends_on := by
          rw [← htid]; exact ih t htmem
        have := happly (Or.inl ⟨hpd, hold⟩)
        simpa [updateTask, hfind, hpd] using this
  | stepDeleteTask st id hr ih =>
    cases hfind : getTask st id with
    | none => simpa [deleteTask, hfind] using ih
    | some t =>
      simp only [deleteTask, hfind]
      intro x hx
      exact ih x (List.mem_filter.1 hx).1

/-- C6: a createTask whose depends_on contains the task's own id fails with
a validation error creating nothing, an updateTask whose depends_on patch
contains the task's own id fails with a validation error modifying nothing,
and consequently every reachable store is free of self-dependencies. -/
theorem selfDependency_spec (st : Store) (id pid title : String)
    (eid notes : Option String) (deps : List String) (p : TaskPatch)
    (now : Nat) :
    (id ∈ deps → ∃ m, createTask st id pid title eid notes deps now =
      (MutResult.invalid m, st, []))
  ∧ (∀ t l, getTask st id = some t → p.depends_on = some l → id ∈ l →
      updateTask st id p now = (MutResult.invalid "self dependency", st, []))
  ∧ (Reachable st → SelfDepFree st) := by
  refine ⟨fun hmem => ?_, fun t l hfind hdep hmem => ?_, fun h =>
    reachable_selfDepFree st h⟩
  · by_cases ht : title = ""
    · exact ⟨"title required", by simp [createTask, ht]⟩
    · exact ⟨"self dependency", by simp [createTask, ht, hmem]⟩
  · simp [updateTask, hfind, hdep, hmem]

/-- Witness for C6: concrete self-referential create and update calls are
rejected unchanged, and the empty store satisfies the invariant. -/
theorem selfDependency_spec_witness :
    (∃ m, createTask ⟨[], [], []⟩ "x" "p" "T" none none ["x"] 0 =
      (MutResult.invalid m, ⟨[], [], []⟩, []))
  ∧ updateTask sampleStore "a" { depends_on := some ["a"] } 1 =
      (MutResult.invalid "self dependency", sampleStore, [])
  ∧ SelfDepFree (⟨[], [], []⟩ : Store) := by
  refine ⟨(selfDependency_spec ⟨[], [], []⟩ "x" "p" "T" none none ["x"]
      {} 0).1 (by decide), ?_, ?_⟩
  · exact (selfDependency_spec sampleStore "a" "p" "T" none none []
      { depends_on := some ["a"] } 1).2.1 sampleTaskA ["a"] (by decide) rfl
      (by decide)
  · exact (selfDependency_spec ⟨[], [], []⟩ "x" "p" "T" none none []
      {} 0).2.2 Reachable.empty

/-- Unfolding `dispatchJobs` over the head webhook. -/
theorem dispatchJobs_cons (v : Webhook) (rest : List Webhook) (e : String) :
    dispatchJobs (v :: rest) e =
      if webhookMatches v e then
        ⟨v.id, e⟩ :: dispatchJobs rest e
      else dispatchJobs rest e := by
  by_cases h : webhookMatches v e <;>
    simp [dispatchJobs, List.filterMap_cons, h]

/-- A webhook id carried by no webhook in the list gets no job. -/
theorem dispatchJobs_count_zero (webhooks : List Webhook) (e wid : String)
    (h : ∀ v ∈ webhooks, v.id ≠ wid) :
    (dispatchJobs webhooks e).countP (fun j => j.webhook_id = wid) = 0 := by
  induction webhooks with
  | nil => simp [dispatchJobs]
  | cons v rest ih =>
    rw [dispatchJobs_cons]
    have hv : v.id ≠ wid := h v (List.mem_cons_self v rest)
    have hrest : ∀ x ∈ rest, x.id ≠ wid :=
      fun x hx => h x (List.mem_cons_of_mem v hx)
    by_cases hm : webhookMatches v e
    · simp [hm, List.countP_cons, hv, ih hrest]
    · simp [hm, ih hrest]

/-- A webhook occurring exactly once in the list gets exactly one job when
it matches the event and zero jobs otherwise. -/
theorem dispatchJobs_count (webhooks : List Webhook) (e : String)
    (w : Webhook) (hw : w ∈ webhooks)
    (huniq : webhooks.countP (fun v => v.id = w.id) = 1) :
    (dispatchJobs webhooks e).countP (fun j => j.webhook_id = w.id) =
      if webhookMatches w e then 1 else 0 := by
  induction webhooks with
  | nil => simp at hw
  | cons v rest ih =>
    rw [List.countP_cons] at huniq
    by_cases hv : v.id = w.id
    · simp [hv] at huniq
      have hnone : ∀ x ∈ rest, x.id ≠ w.id := fun x hx => huniq x hx
      have hwv : w = v := by
        rcases List.mem_cons.1 hw with h | h
        · exact h
        · exact absurd rfl (hnone w h)
      subst hwv
      rw [dispatchJobs_cons]
      by_cases hm : webhookMatches w e
      · simp [hm, List.countP_cons, dispatchJobs_count_zero rest e w.id hnone]
      · simp [hm, dispatchJobs_count_zero rest e w.id hnone]
    · simp [hv] at huniq
      have hrest1 : rest.countP (fun x => x.id = w.id) = 1 := huniq
      have hwrest : w ∈ rest := by
        rcases List.mem_cons.1 hw with h | h
        · subst h; exact absurd rfl hv
        · exact h
      rw [dispatchJobs_cons]
      by_cases hm : webhookMatches v e
      · simp [hm, List.countP_cons, hv, ih hwrest hrest1]
      · simp [hm, ih hwrest hrest1]

/-- A sample enabled webhook subscribed only to task.status_changed. -/
def sampleWebhook : Webhook :=
  { id := "w1", url := "http://example.test", secret := none,
    events := ["task.status_changed"], enabled := true,
    created_at := 0, updated_at := 0 }

/-- C4: the dispatcher constructs exactly one delivery job for a webhook
that is enabled and whose event set contains the event name or the
wildcard, and zero for any other webhook; in particular a webhook
subscribed only to task.status_changed receives exactly one job from an
update that changes the task's status and zero jobs from an update that
leaves the status unchanged (for example a notes-only update). -/
theorem dispatcher_fanout_spec (webhooks : List Webhook) (w : Webhook)
    (e : String) (st : Store) (id : String) (p : TaskPatch) (now : Nat)
    (hw : w ∈ webhooks)
    (huniq : webhooks.countP (fun v => v.id = w.id) = 1) :
    ((dispatchJobs webhooks e).countP (fun j => j.webhook_id = w.id) =
      if webhookMatches w e then 1 else 0)
  ∧ (w.events = ["task.status_changed"] → w.enabled = true →
     ∀ t, getTask st id = some t → (∀ l, p.depends_on = some l → id ∉ l) →
     (((applyTaskPatch t p now).status ≠ t.status →
        (dispatchAll webhooks (updateTask st id p now).2.2).countP
          (fun j => j.webhook_id = w.id) = 1)
      ∧ ((applyTaskPatch t p now).status = t.status →
        (dispatchAll webhooks (updateTask st id p now).2.2).countP
          (fun j => j.webhook_id = w.id) = 0))) := by
  refine ⟨dispatchJobs_count webhooks e w hw huniq, ?_⟩
  intro hev hen t hfind hval
  have hm_sc : webhookMatches w "task.status_changed" = true := by
    simp [webhookMatches, hev, hen]
  have hm_u : webhookMatches w "task.updated" = false := by
    simp [webhookMatches, hev, hen]
  have hevents : (updateTask st id p now).2.2 =
      if (applyTaskPatch t p now).status ≠ t.status
      then ["task.updated", "task.status_changed"] else ["task.updated"] := by
    cases hpd : p.depends_on with
    | none => simp [updateTask, hfind, hpd, updateTask.updateTaskApply]
    | some l =>
      have hnin : id ∉ l := hval l hpd
      simp [updateTask, hfind, hpd, hnin, updateTask.updateTaskApply]
  constructor
  · intro hne
    rw [hevents, if_pos hne]
    simp [dispatchAll, List.countP_append,
      dispatchJobs_count webhooks "task.updated" w hw huniq,
      dispatchJobs_count webhooks "task.status_changed" w hw huniq,
      hm_u, hm_sc]
  · intro heq
    have hnn : ¬((applyTaskPatch t p now).status ≠ t.status) := fun h => h heq
    rw [hevents, if_neg hnn]
    simp [dispatchAll,
      dispatchJobs_count webhooks "task.updated" w hw huniq, hm_u]

/-- Witness for C4: with one subscribed webhook, a status-changing update
of task `a` yields exactly one job and a notes-only update yields none. -/
theorem dispatcher_fanout_spec_witness :
    (dispatchAll [sampleWebhook]
      (updateTask sampleStore "a" { status := some Status.done } 1).2.2).countP
        (fun j => j.webhook_id = sampleWebhook.id) = 1
  ∧ (dispatchAll [sampleWebhook]
      (updateTask sampleStore "a" { notes := some "n" } 1).2.2).countP
        (fun j => j.webhook_id = sampleWebhook.id) = 0 := by
  constructor
  · exact ((dispatcher_fanout_spec [sampleWebhook] sampleWebhook "x"
      sampleStore "a" { status := some Status.done } 1
      (List.mem_cons_self sampleWebhook []) (by decide)).2 rfl rfl
      sampleTaskA (by decide) (fun l hl => by simp at hl)).1 (by decide)
  · exact ((dispatcher_fanout_spec [sampleWebhook] sampleWebhook "x"
      sampleStore "a" { notes := some "n" } 1
      (List.mem_cons_self sampleWebhook []) (by decide)).2 rfl rfl
      sampleTaskA (by decide) (fun l hl => by simp at hl)).2 (by decide)

/-- Status recorded from an attempt (a code for responses, none for
network errors). -/
def lastStatusOf : AttemptResult → Option Nat
  | .response s => some s
  | .netError _ => none

/-- Error recorded from an attempt. -/
def lastErrorOf : AttemptResult → Option String
  | .response _ => none
  | .netError e => some e

/-- A failed attempt with retries left recurses after its backoff delay. -/
theorem deliverAux_fail_step (env : Nat → AttemptResult) (i r : Nat)
    (h : attemptOk (env i) = false) :
    deliverAux env i (r + 1) =
      ((deliverAux env (i + 1) r).1,
       backoffMs.getD (i - 1) 0 :: (deliverAux env (i + 1) r).2) := by
  cases he : env i with
  | response s =>
    have hb : (200 ≤ s && s < 300) = false := by
      simpa [attemptOk, he] using h
    simp [deliverAux, he, hb]
  | netError e => simp [deliverAux, he]

/-- A failed attempt with no retries left terminates the sequence as
failed, recording this attempt's status or error. -/
theorem deliverAux_fail_last (env : Nat → AttemptResult) (i : Nat)
    (h : attemptOk (env i) = false) :
    deliverAux env i 0 =
      (⟨Outcome.failed, i, lastStatusOf (env i), lastErrorOf (env i)⟩,
       [backoffMs.getD (i - 1) 0]) := by
  cases he : env i with
  | response s =>
    have hb : (200 ≤ s && s < 300) = false := by
      simpa [attemptOk, he] using h
    simp [deliverAux, he, hb, lastStatusOf, lastErrorOf]
  | netError e => simp [deliverAux, he, lastStatusOf, lastErrorOf]

/-- A 2xx attempt terminates the sequence immediately as success. -/
theorem deliverAux_success (env : Nat → AttemptResult) (i r s : Nat)
    (he : env i = AttemptResult.response s) (h2 : 200 ≤ s) (h3 : s < 300) :
    deliverAux env i r =
      (⟨Outcome.success, i, some s, none⟩, [backoffMs.getD (i - 1) 0]) := by
  have hb : (200 ≤ s && s < 300) = true := by simp [h2, h3]
  cases r <;> simp [deliverAux, he, hb]

/-- Prepending the current backoff delay shifts the delay-schedule map by
one attempt. -/
theorem backoff_map_shift (i r : Nat) :
    backoffMs.getD (i - 1) 0 ::
      List.map (fun k => backoffMs.getD (i + 1 + k - 1) 0) (List.range (r + 1)) =
    List.map (fun k => backoffMs.getD (i + k - 1) 0) (List.range (r + 1 + 1)) := by
  conv_rhs => rw [List.range_succ_eq_map]
  rw [List.map_cons, List.map_map]
  congr 1
  · simp

/-- The singleton range. -/
theorem range_one_eq : List.range 1 = [0] := by decide

/-- If every attempt in the window fails, the loop makes them all and
terminates failed at the last one. -/
theorem deliverAux_all_fail (env : Nat → AttemptResult) (r : Nat) :
    ∀ i, (∀ j, i ≤ j → j ≤ i + r → attemptOk (env j) = false) →
    (deliverAux env i r).1 =
      ⟨Outcome.failed, i + r, lastStatusOf (env (i + r)),
        lastErrorOf (env (i + r))⟩ ∧
    (deliverAux env i r).2 =
      (List.range (r + 1)).map (fun k => backoffMs.getD (i + k - 1) 0) := by
  induction r with
  | zero =>
    intro i h
    have hlast := deliverAux_fail_last env i (h i le_rfl (by omega))
    refine ⟨by simp [hlast], ?_⟩
    simp [hlast, range_one_eq]
  | succ r ih =>
    intro i h
    have hstep := deliverAux_fail_step env i r (h i le_rfl (by omega))
    have hrec := ih (i + 1) (fun j hj1 hj2 => h j (by omega) (by omega))
    have harith : i + 1 + r = i + (r + 1) := by omega
    rw [hstep]
    refine ⟨by rw [hrec.1]; simp [harith], ?_⟩
    simp only [hrec.2]
    exact backoff_map_shift i r

/-- If the first 2xx attempt is attempt k inside the window, the loop stops
there with outcome success. -/
theorem deliverAux_first_success (env : Nat → AttemptResult) (r : Nat) :
    ∀ i k s, i ≤ k → k ≤ i + r →
    (∀ j, i ≤ j → j < k → attemptOk (env j) = false) →
    env k = AttemptResult.response s → 200 ≤ s → s < 300 →
    (deliverAux env i r).1 = ⟨Outcome.success, k, some s, none⟩ ∧
    (deliverAux env i r).2 =
      (List.range (k - i + 1)).map (fun m => backoffMs.getD (i + m - 1) 0) := by
  induction r with
  | zero =>
    intro i k s hik hki hfail he h2 h3
    have hk : k = i := by omega
    subst hk
    have hsucc := deliverAux_success env k 0 s he h2 h3
    refine ⟨by simp [hsucc], ?_⟩
    simp [hsucc, range_one_eq]
  | succ r ih =>
    intro i k s hik hki hfail he h2 h3
    by_cases hQ : i = k
    · subst hQ
      have hsucc := deliverAux_success env i (r + 1) s he h2 h3
      refine ⟨by simp [hsucc], ?_⟩
      simp [hsucc, range_one_eq]
    · have hlt : i < k := lt_of_le_of_ne hik hQ
      have hstep := deliverAux_fail_step env i r (hfail i le_rfl hlt)
      have hrec := ih (i + 1) k s (by omega) (by omega)
        (fun j hj1 hj2 => hfail j (by omega) hj2) he h2 h3
      rw [hstep]
      refine ⟨hrec.1, ?_⟩
      simp only [hrec.2]
      have hki' : k - i = (k - (i + 1)) + 1 := by omega
      rw [hki']
      exact backoff_map_shift i (k - (i + 1))

/-- C1: per delivery sequence, the first attempt that gets a 2xx response
(within the 4-attempt window) terminates the sequence with outcome success,
that attempt's status code and the attempt count, having waited the backoff
prefix; if all 4 attempts fail (non-2xx or network error), the sequence
makes exactly 4 attempts with delays 0s, 1s, 5s, 30s, terminates with
outcome failed, the last status/error and attempt_count = 4, and no further
attempt happens. -/
theorem webhook_delivery_spec (env : Nat → AttemptResult) :
    (∀ k s, 1 ≤ k → k ≤ 4 →
      (∀ j, 1 ≤ j → j < k → attemptOk (env j) = false) →
      env k = AttemptResult.response s → 200 ≤ s → s < 300 →
      (deliver env).1 = ⟨Outcome.success, k, some s, none⟩ ∧
      (deliver env).2 = backoffMs.take k)
  ∧ ((∀ j, 1 ≤ j → j ≤ 4 → attemptOk (env j) = false) →
      (deliver env).1 = ⟨Outcome.failed, 4, lastStatusOf (env 4),
        lastErrorOf (env 4)⟩ ∧
      (deliver env).2 = [0, 1000, 5000, 30000]) := by
  constructor
  · intro k s hk1 hk4 hfail he h2 h3
    have h := deliverAux_first_success env 3 1 k s hk1 (by omega) hfail he h2 h3
    refine ⟨h.1, ?_⟩
    show (deliverAux env 1 3).2 = backoffMs.take k
    rw [h.2]
    have hsimp : ∀ m : Nat, 1 + m - 1 = m := fun m => by omega
    simp only [hsimp]
    interval_cases k <;> decide
  · intro hfail
    have h := deliverAux_all_fail env 3 1 (fun j hj1 hj2 => hfail j hj1 (by omega))
    refine ⟨by simpa using h.1, ?_⟩
    show (deliverAux env 1 3).2 = [0, 1000, 5000, 30000]
    rw [h.2]
    decide

/-- Endpoint behavior: 500 on attempts 1-3, 200 on attempt 4. -/
def sampleEnvFailThenOk : Nat → AttemptResult :=
  fun j => if j < 4 then AttemptResult.response 500 else AttemptResult.response 200

/-- Endpoint behavior: connection refused on every attempt. -/
def sampleEnvAlwaysFail : Nat → AttemptResult :=
  fun _ => AttemptResult.netError "ECONNREFUSED"

/-- Witness for C1: the 500,500,500,200 endpoint ends success with
attempt_count 4; the always-failing endpoint ends failed after exactly the
4 scheduled attempts. -/
theorem webhook_delivery_spec_witness :
    (deliver sampleEnvFailThenOk).1 = ⟨Outcome.success, 4, some 200, none⟩
  ∧ (deliver sampleEnvAlwaysFail).1 =
      ⟨Outcome.failed, 4, none, some "ECONNREFUSED"⟩
  ∧ (deliver sampleEnvAlwaysFail).2 = [0, 1000, 5000, 30000] := by
  have hs := (webhook_delivery_spec sampleEnvFailThenOk).1 4 200 (by omega)
    (by omega) (fun j h1 h4 => by interval_cases j <;> rfl) rfl
    (by omega) (by omega)
  have hf := (webhook_delivery_spec sampleEnvAlwaysFail).2 (fun j _ _ => rfl)
  exact ⟨hs.1, hf.1, hf.2⟩

/-- A relation holding for every pair drawn from a list holds along its
consecutive pairs. -/
theorem chain'_of_pairs {α : Type} {R : α → α → Prop} :
    ∀ ts : List α, (∀ a ∈ ts, ∀ b ∈ ts, R a b) → List.Chain' R ts := by
  intro ts h
  induction ts with
  | nil => simp
  | cons a rest ih =>
    cases rest with
    | nil => simp
    | cons b r2 =>
      rw [List.chain'_cons]
      refine ⟨h a (by simp) b (by simp), ih ?_⟩
      exact fun x hx y hy =>
        h x (List.mem_cons_of_mem a hx) y (List.mem_cons_of_mem a hy)

/-- In a burst where each change arrives within the delay of the previous
one, every pending timer is cancelled and only the last fires: exactly one
broadcast, at the last change plus the delay. -/
theorem notifyTimes_burst (d : Nat) :
    ∀ ts : List Nat, ∀ hne : ts ≠ [],
    List.Chain' (fun a b => b ≤ a + d) ts →
    notifyTimes d ts = [ts.getLast hne + d] := by
  intro ts
  induction ts with
  | nil => intro hne; exact absurd rfl hne
  | cons t rest ih =>
    cases rest with
    | nil => intro hne hchain; simp [notifyTimes]
    | cons t2 r2 =>
      intro hne hchain
      rw [List.chain'_cons] at hchain
      have hno : ¬(t + d < t2) := by omega
      simp only [notifyTimes, if_neg hno]
      rw [ih (by simp) hchain.2]
      rw [List.getLast_cons (by simp : t2 :: r2 ≠ [])]

/-- With every change arriving strictly after the previous deadline, every
timer fires: one broadcast per change. -/
theorem notifyTimes_spread (d : Nat) :
    ∀ ts : List Nat, List.Chain' (fun a b => a + d < b) ts →
    (notifyTimes d ts).length = ts.length := by
  intro ts
  induction ts with
  | nil => intro _; simp [notifyTimes]
  | cons t rest ih =>
    cases rest with
    | nil => intro _; simp [notifyTimes]
    | cons t2 r2 =>
      intro hchain
      rw [List.chain'_cons] at hchain
      simp only [notifyTimes, if_pos hchain.1]
      simp [ih hchain.2]

/-- C7: ten data changes all within a 50ms window produce exactly one
`data-changed` broadcast (which is at least one and fewer than ten: the
75ms coalescing window collapses the burst), whereas changes spaced 200ms
apart produce exactly one broadcast per change. -/
theorem sse_coalescing_spec (ts : List Nat) (hne : ts ≠ []) :
    (ts.length = 10 → (∀ t ∈ ts, ∀ u ∈ ts, t ≤ u + 50) →
      (notifyTimes 75 ts).length = 1)
  ∧ (List.Chain' (fun a b => b = a + 200) ts →
      (notifyTimes 75 ts).length = ts.length) := by
  constructor
  · intro _ hwin
    have hchain : List.Chain' (fun a b => b ≤ a + 75) ts :=
      chain'_of_pairs ts (fun a ha b hb => by
        have := hwin b hb a ha
        omega)
    rw [notifyTimes_burst 75 ts hne hchain]
    rfl
  · intro hchain
    refine notifyTimes_spread 75 ts (hchain.imp ?_)
    intro a b hab
    omega

/-- Witness for C7: the burst 0,5,...,45 (10 changes inside 50ms) yields
one broadcast; changes at 0,200,400 yield three. -/
theorem sse_coalescing_spec_witness :
    (notifyTimes 75 [0, 5, 10, 15, 20, 25, 30, 35, 40, 45]).length = 1
  ∧ (notifyTimes 75 [0, 200, 400]).length = 3 := by
  constructor
  · exact (sse_coalescing_spec [0, 5, 10, 15, 20, 25, 30, 35, 40, 45]
      (by decide)).1 (by decide) (by decide)
  · refine (sse_coalescing_spec [0, 200, 400] (by decide)).2 ?_
    rw [List.chain'_cons, List.chain'_cons]
    exact ⟨by omega, by omega, List.chain'_singleton 400⟩

/-- C10: the coalescer is a trailing-edge debounce — in a burst where each
change arrives less than 75ms after the previous one the pending timer is
cleared and reset each time, so exactly one broadcast fires for the whole
burst, scheduled 75ms after the last change, and none fires mid-burst. -/
theorem debounce_trailing_edge_spec (ts : List Nat) (hne : ts ≠ [])
    (hburst : List.Chain' (fun a b => b < a + 75) ts) :
    notifyTimes 75 ts = [ts.getLast hne + 75] :=
  notifyTimes_burst 75 ts hne (hburst.imp (fun hab => by omega))

/-- Witness for C10: the burst 0,10,20 debounces to the single broadcast
at 95. -/
theorem debounce_trailing_edge_spec_witness :
    notifyTimes 75 [0, 10, 20] = [95] := by
  have hchain : List.Chain' (fun a b => b < a + 75) [0, 10, 20] := by
    rw [List.chain'_cons, List.chain'_cons]
    exact ⟨by omega, by omega, List.chain'_singleton 20⟩
  have h := debounce_trailing_edge_spec [0, 10, 20] (by decide) hchain
  simpa using h

/-- The registry surviving a broadcast is exactly the non-failing
consumers. -/
theorem broadcastSse_fst (payload : String) :
    ∀ clients : List SseClient,
    (broadcastSse payload clients).1 = clients.filter (fun c => !c.failing) := by
  intro clients
  induction clients with
  | nil => rfl
  | cons c rest ih =>
    cases hc : c.failing <;>
      simp [broadcastSse, hc, List.filter_cons, ih]

/-- Every non-failing consumer receives the broadcast payload. -/
theorem broadcastSse_delivers (payload : String) :
    ∀ clients : List SseClient, ∀ c ∈ clients, c.failing = false →
    (c.id, payload) ∈ (broadcastSse payload clients).2 := by
  intro clients
  induction clients with
  | nil => intro c hc; simp at hc
  | cons v rest ih =>
    intro c hc hcf
    rcases List.mem_cons.1 hc with h | h
    · subst h
      simp [broadcastSse, hcf]
    · cases hv : v.failing <;>
        simp [broadcastSse, hv, ih c h hcf]

/-- C8: a write failure on one consumer's channel is absorbed locally and
deregisters exactly that consumer — the registry after a broadcast is the
non-failing consumers, a failing consumer is no longer registered, and
every other consumer still receives the payload (the broadcast is a total
function: no exception reaches the emitter). -/
theorem sse_broadcast_isolation_spec (payload : String)
    (clients : List SseClient) :
    ((broadcastSse payload clients).1 =
      clients.filter (fun c => !c.failing))
  ∧ (∀ c ∈ clients, c.failing = true →
      c ∉ (broadcastSse payload clients).1)
  ∧ (∀ c ∈ clients, c.failing = false →
      c ∈ (broadcastSse payload clients).1 ∧
      (c.id, payload) ∈ (broadcastSse payload clients).2) := by
  refine ⟨broadcastSse_fst payload clients, ?_, ?_⟩
  · intro c _ hcf hmem
    rw [broadcastSse_fst payload clients] at hmem
    have := (List.mem_filter.1 hmem).2
    simp [hcf] at this
  · intro c hc hcf
    refine ⟨?_, broadcastSse_delivers payload clients c hc hcf⟩
    rw [broadcastSse_fst payload clients]
    exact List.mem_filter.2 ⟨hc, by simp [hcf]⟩

/-- Witness for C8: among consumers 1 (healthy), 2 (failing), 3 (healthy),
a broadcast drops exactly consumer 2 and delivers to 1 and 3. -/
theorem sse_broadcast_isolation_spec_witness :
    (⟨2, true⟩ : SseClient) ∉
      (broadcastSse "data-changed" [⟨1, false⟩, ⟨2, true⟩, ⟨3, false⟩]).1
  ∧ ((1 : Nat), "data-changed") ∈
      (broadcastSse "data-changed" [⟨1, false⟩, ⟨2, true⟩, ⟨3, false⟩]).2
  ∧ ((3 : Nat), "data-changed") ∈
      (broadcastSse "data-changed" [⟨1, false⟩, ⟨2, true⟩, ⟨3, false⟩]).2 := by
  refine ⟨(sse_broadcast_isolation_spec "data-changed"
      [⟨1, false⟩, ⟨2, true⟩, ⟨3, false⟩]).2.1 ⟨2, true⟩ (by simp) rfl, ?_, ?_⟩
  · exact ((sse_broadcast_isolation_spec "data-changed"
      [⟨1, false⟩, ⟨2, true⟩, ⟨3, false⟩]).2.2 ⟨1, false⟩ (by simp) rfl).2
  · exact ((sse_broadcast_isolation_spec "data-changed"
      [⟨1, false⟩, ⟨2, true⟩, ⟨3, false⟩]).2.2 ⟨3, false⟩ (by simp) rfl).2

/-- Counterexample to C9 as stated: on malformed stored data (a parse
error), every adapter silently replaces the data with the empty default
store instead of propagating the failure. -/
theorem adapter_read_absorbs_counterexample :
    (jsonAdapterRead (ReadState.present
      (Except.error "SyntaxError: Unexpected token"))).1 = defaultData
  ∧ (sqliteAdapterRead (some
      (Except.error "SyntaxError: Unexpected token"))).1 = defaultData
  ∧ fileAdapterRead
      (Except.error "SyntaxError: Unexpected token") = defaultData :=
  ⟨rfl, rfl, rfl⟩

/-- C9 amended: adapter write failures propagate unchanged to the calling
mutation, but read failures do not — each adapter's read catches a parse
or read error of the backing store and silently substitutes the empty
default store (successful parses are returned as-is). -/
theorem adapter_error_paths_spec :
    (∀ e : String,
      (jsonAdapterRead (ReadState.present (Except.error e))).1 = defaultData
      ∧ (sqliteAdapterRead (some (Except.error e))).1 = defaultData
      ∧ fileAdapterRead (Except.error e) = defaultData)
  ∧ (∀ e : String, adapterWrite (Except.error e) = Except.error e)
  ∧ adapterWrite (Except.ok ()) = Except.ok ()
  ∧ (∀ s : Store,
      (jsonAdapterRead (ReadState.present (Except.ok s))).1 = s
      ∧ (sqliteAdapterRead (some (Except.ok s))).1 = s
      ∧ fileAdapterRead (Except.ok s) = s) :=
  ⟨fun _ => ⟨rfl, rfl, rfl⟩, fun _ => rfl, rfl, fun _ => ⟨rfl, rfl, rfl⟩⟩

/-- A sample webhook with a configured signing secret. -/
def sampleWebhookSecret : Webhook :=
  { id := "w2", url := "http://example.test", secret := some "s3cret",
    events := ["*"], enabled := true, created_at := 0, updated_at := 0 }

/-- C3: when a secret is configured the outbound request carries
X-Flux-Signature equal to sha256= followed by the lowercase hex
HMAC-SHA256 of the raw body keyed by the secret (checked against the test
vector for secret s3cret and body \x7b"a":1\x7d); without a secret the
signature header is absent; the fixed User-Agent and the X-Flux-Event,
X-Flux-Delivery and X-Flux-Timestamp headers are attached in all cases. -/
theorem webhook_signature_spec (w : Webhook) (en did ts body : String) :
    (∀ s, w.secret = some s →
      ("X-Flux-Signature", "sha256=" ++ hmacSha256Hex s body) ∈
        buildWebhookHeaders w en did ts body)
  ∧ (w.secret = none → ∀ v,
      ("X-Flux-Signature", v) ∉ buildWebhookHeaders w en did ts body)
  ∧ ("User-Agent", "Flux-Webhook/1.0") ∈ buildWebhookHeaders w en did ts body
  ∧ ("X-Flux-Event", en) ∈ buildWebhookHeaders w en did ts body
  ∧ ("X-Flux-Delivery", did) ∈ buildWebhookHeaders w en did ts body
  ∧ ("X-Flux-Timestamp", ts) ∈ buildWebhookHeaders w en did ts body
  ∧ hmacSha256Hex "s3cret" "\x7b\"a\":1\x7d" =
      "5910e62016ef5034272c926c27071992a465c2335cecf41851bda071577f4f6d" := by
  refine ⟨?_, ?_, ?_, ?_, ?_, ?_, by decide⟩
  · intro s hs
    simp [buildWebhookHeaders, hs]
  · intro hs v
    simp [buildWebhookHeaders, hs]
  · simp [buildWebhookHeaders]
  · simp [buildWebhookHeaders]
  · simp [buildWebhookHeaders]
  · simp [buildWebhookHeaders]

/-- Witness for C3: the secret-bearing webhook carries the test-vector
signature header; the secretless webhook carries no signature header. -/
theorem webhook_signature_spec_witness :
    ("X-Flux-Signature",
      "sha256=5910e62016ef5034272c926c27071992a465c2335cecf41851bda071577f4f6d")
      ∈ buildWebhookHeaders sampleWebhookSecret "task.created" "d1"
        "2024-01-15T10:30:00.000Z" "\x7b\"a\":1\x7d"
  ∧ (∀ v, ("X-Flux-Signature", v) ∉
      buildWebhookHeaders sampleWebhook "task.created" "d1"
        "2024-01-15T10:30:00.000Z" "\x7b\"a\":1\x7d") := by
  constructor
  · have hmem := (webhook_signature_spec sampleWebhookSecret "task.created"
      "d1" "2024-01-15T10:30:00.000Z" "\x7b\"a\":1\x7d").1 "s3cret" rfl
    have heq : "sha256=" ++ hmacSha256Hex "s3cret" "\x7b\"a\":1\x7d" =
        "sha256=5910e62016ef5034272c926c27071992a465c2335cecf41851bda071577f4f6d" := by
      decide
    exact heq ▸ hmem
  · exact (webhook_signature_spec sampleWebhook "task.created" "d1"
      "2024-01-15T10:30:00.000Z" "\x7b\"a\":1\x7d").2.1 rfl

end Flux
